import Mathlib

/-!
# Verification of the 2048-battle grid engine and peer synchronizer

Shallow embedding of `src/common/backend/grid/grid.go` (tile grid, moves,
merging, outcome, reset/spawn) and of the multiplayer screen's opponent-data
handlers. Go's `math/rand` calls are modelled by explicit oracle parameters
(a list of candidate cells for rejection sampling, rational samples for
`rand.Float64`), and `uuid.NewV7` by a fresh-identifier counter threaded
through the functions.
-/

namespace Grid2048

/-- A tile on the grid: `Val`, `Cmb` ("combined this turn") and `UUID` from
`grid.go`.  UUIDs are modelled as natural numbers drawn from a counter. -/
structure Tile where
  val : Nat
  cmb : Bool
  uuid : Nat
  deriving DecidableEq, Repr

/-- The zero value used for an empty cell (`emptyTile = 0` in `grid.go`). -/
def emptyTile : Nat := 0

/-- A row of the 4×4 grid (`[gridWidth]Tile`). -/
def Row : Type := Fin 4 → Tile

instance : DecidableEq Row := inferInstanceAs (DecidableEq (Fin 4 → Tile))

/-- The tile matrix (`[gridWidth][gridHeight]Tile`); `t i j` is `Tiles[i][j]`. -/
def GridT : Type := Fin 4 → Row

instance : DecidableEq GridT := inferInstanceAs (DecidableEq (Fin 4 → Row))

/-- The four move directions of `grid.go`. -/
inductive Direction where
  | up | down | left | right
  deriving DecidableEq, Repr

/-- `transpose` from `grid.go`. -/
def transpose (t : GridT) : GridT := fun i j => t j i

/-- `reverse := dir == DirRight || dir == DirDown` in `moveStep`. -/
def isReverse (dir : Direction) : Bool :=
  dir = Direction.right || dir = Direction.down

/-- Whether the direction is vertical (`dir == DirUp || dir == DirDown`),
which triggers the transposes in `move`. -/
def isVertical (dir : Direction) : Bool :=
  dir = Direction.up || dir = Direction.down

/-- The hypothetical next position computed in `moveStep`:
`newPos := i - 1` (or `i + 1` when reversed), `none` when off the grid. -/
def nextPos (rev : Bool) (i : Fin 4) : Option (Fin 4) :=
  let n : Int := if rev then (i : Int) + 1 else (i : Int) - 1
  if h : 0 ≤ n ∧ n < 4 then some ⟨n.toNat, by omega⟩ else none

/-- Modelled from the spec: the `newIter` iterator (its source file is not in
the repository snapshot) scans cell indices in the direction of travel,
with the iteration order reversed for Right/Down. -/
def iterIdx (rev : Bool) : List (Fin 4) :=
  if rev then [3, 2, 1, 0] else [0, 1, 2, 3]

/-- The combine mutation of `moveStep`: the destination gets the summed value,
its `Cmb` flag set and a fresh uuid; the source is cleared (its `Cmb` flag is
left as it was) and gets a fresh uuid. -/
def mergeRow (g : Row) (i np : Fin 4) (s : Nat) : Row :=
  Function.update (Function.update g np
    ⟨(g np).val + (g i).val, true, s⟩) i ⟨emptyTile, (g i).cmb, s + 1⟩

/-- The slide mutation of `moveStep`: the source tile is copied into the empty
destination and replaced by a fresh empty tile. -/
def slideRow (g : Row) (i np : Fin 4) (s : Nat) : Row :=
  Function.update (Function.update g np (g i)) i ⟨emptyTile, false, s⟩

/-- The loop body of `moveStep`, recursing over the iterator's indices.
State: the row `g` and the fresh-uuid counter `s`.  Returns the row, whether a
tile moved, the points gained, and the updated counter. -/
def moveStepAux (rev : Bool) : List (Fin 4) → Row → Nat → Row × Bool × Nat × Nat
  | [], g, s => (g, false, 0, s)
  | i :: rest, g, s =>
    match nextPos rev i with
    | none => moveStepAux rev rest g s
    | some np =>
      if (g i).val = emptyTile then
        moveStepAux rev rest g s
      else
        let alreadyCombined := (g i).cmb || (g np).cmb
        if (g np).val = (g i).val ∧ alreadyCombined = false then
          -- combine: update the new location, clear the old location, end turn
          (mergeRow g i np s, true, (g np).val + (g i).val, s + 2)
        else if (g np).val ≠ emptyTile then
          -- move blocked by another tile
          moveStepAux rev rest g s
        else
          -- destination empty; move tile and end turn
          (slideRow g i np s, true, 0, s + 1)

/-- `moveStep` from `grid.go`: one single-step pass over a row. -/
def moveStep (g : Row) (dir : Direction) (s : Nat) : Row × Bool × Nat × Nat :=
  let rev := isReverse dir
  moveStepAux rev (iterIdx rev) g s

/-- The per-row body of `move`'s inner loop: transpose for vertical moves,
apply `moveStep` to row `r`, transpose back. -/
def passRow (dir : Direction) (t : GridT) (r : Fin 4) (s : Nat) :
    GridT × Bool × Nat × Nat :=
  let t1 := if isVertical dir then transpose t else t
  let res := moveStep (t1 r) dir s
  let t2 := Function.update t1 r res.1
  let t3 := if isVertical dir then transpose t2 else t2
  (t3, res.2.1, res.2.2.1, res.2.2.2)

/-- One full pass of `move`'s inner `for row := range gridHeight` loop,
threading `movedThisTurn`, `pointsGained` and the uuid counter. -/
def passRows (dir : Direction) : List (Fin 4) → GridT → Bool → Nat → Nat →
    GridT × Bool × Nat × Nat
  | [], t, mv, pts, s => (t, mv, pts, s)
  | r :: rest, t, mv, pts, s =>
    let res := passRow dir t r s
    passRows dir rest res.1 (mv || res.2.1)
      (if res.2.2.1 > 0 then res.2.2.1 else pts) res.2.2.2

/-- The list of row indices scanned by each pass. -/
def allRows : List (Fin 4) := [0, 1, 2, 3]

/-- The outer `for { ... if !movedThisTurn { break } }` loop of `move`,
with explicit fuel.  `moveFuel` passes are always enough (see the
termination theorem): the loop exits via the break, never by exhausting
the fuel. -/
def moveLoop (dir : Direction) : Nat → GridT → Bool → Nat → Nat →
    GridT × Bool × Nat × Nat
  | 0, t, mv, pts, s => (t, mv, pts, s)
  | fuel + 1, t, mv, pts, s =>
    let res := passRows dir allRows t false pts s
    if res.2.1 then moveLoop dir fuel res.1 (mv || res.2.1) res.2.2.1 res.2.2.2
    else (res.1, mv || res.2.1, res.2.2.1, res.2.2.2)

/-- Fuel for `moveLoop`; the movement measure of a grid is at most 48, so 49
passes always reach the break. -/
def moveFuel : Nat := 49

/-- Clearing of every tile's `Cmb` flag, performed at the start of `move`. -/
def clearCmb (t : GridT) : GridT := fun i j => { t i j with cmb := false }

/-- `move` from `grid.go` (lowercase): clear all `Cmb` flags, then execute
single-step passes until the grid can no longer move.  Returns the tiles,
whether any tile moved, the points gained, and the uuid counter. -/
def moveGo (t : GridT) (dir : Direction) (s : Nat) : GridT × Bool × Nat × Nat :=
  moveLoop dir moveFuel (clearCmb t) false 0 s

/-- `newTileVal` from `grid.go`; the `rand.Float64()` sample (uniform in
`[0,1)`) is the explicit parameter `u`. -/
def newTileVal (u : ℚ) : Nat :=
  if u ≥ 9 / 10 then 4 else 2

/-- A cell of the grid, as the pair of `rand.Intn(gridWidth)`,
`rand.Intn(gridHeight)` picks. -/
def Cell : Type := Fin 4 × Fin 4

instance : DecidableEq Cell := inferInstanceAs (DecidableEq (Fin 4 × Fin 4))

instance : Fintype Cell := inferInstanceAs (Fintype (Fin 4 × Fin 4))

/-- The rejection-sampling loop of `spawnTile`: keep drawing cells from the
random stream until one is empty.  `none` models the loop never finding an
empty cell within the supplied stream. -/
def firstEmptyPick (t : GridT) : List Cell → Option Cell
  | [] => none
  | c :: rest => if (t c.1 c.2).val = emptyTile then some c else firstEmptyPick t rest

/-- Write tile `v` at cell `(x, y)`. -/
def setCell (t : GridT) (x y : Fin 4) (v : Tile) : GridT :=
  Function.update t x (Function.update (t x) y v)

/-- `spawnTile` from `grid.go`: draw random cells until an empty one is found,
then set its value to `newTileVal` and give it a fresh uuid. -/
def spawnTile (t : GridT) (picks : List Cell) (u : ℚ) (s : Nat) :
    Option (GridT × Nat) :=
  match firstEmptyPick t picks with
  | none => none
  | some c =>
    some (setCell t c.1 c.2 { t c.1 c.2 with val := newTileVal u, uuid := s }, s + 1)

/-- The `Grid` struct: the tile matrix and `LastMove` (`none` models the
zero-valued `Direction` before any move). -/
structure Grid where
  tiles : GridT
  lastMove : Option Direction

/-- `Move` from `grid.go`: attempt the move; if any tile moved, spawn a new
tile; record `LastMove` regardless; return the points gained.  The result is
`none` only when the spawn loop's random stream never hits an empty cell. -/
def Move (g : Grid) (dir : Direction) (picks : List Cell) (u : ℚ) (s : Nat) :
    Option (Grid × Nat × Nat) :=
  let res := moveGo g.tiles dir s
  if res.2.1 then
    match spawnTile res.1 picks u res.2.2.2 with
    | none => none
    | some (t', s') => some ({ tiles := t', lastMove := some dir }, res.2.2.1, s')
  else
    some ({ tiles := res.1, lastMove := some dir }, res.2.2.1, res.2.2.2)

/-- `NewTiles` from `grid.go`: all-empty tiles, each with a fresh uuid. -/
def newTiles (s : Nat) : GridT × Nat :=
  (fun i j => ⟨emptyTile, false, s + 4 * i.val + j.val⟩, s + 16)

/-- The retry loop of `Reset`: redraw `tile2` until it differs from `tile1`. -/
def firstNe (c1 : Cell) : List Cell → Option Cell
  | [] => none
  | c :: rest => if c = c1 then firstNe c1 rest else some c

/-- `Reset` from `grid.go`: fresh tiles, then two seed tiles at distinct
random cells, each valued by `newTileVal`.  The random cell stream is
`picks` (first element = `tile1`, the rest feed the retry loop for `tile2`);
`u1`, `u2` are the two `rand.Float64` samples. -/
def Reset (picks : List Cell) (u1 u2 : ℚ) (s : Nat) : Option (GridT × Nat) :=
  let t0 := newTiles s
  match picks with
  | [] => none
  | c1 :: rest =>
    match firstNe c1 rest with
    | none => none
    | some c2 =>
      let t1 := setCell t0.1 c1.1 c1.2 { t0.1 c1.1 c1.2 with val := newTileVal u1 }
      let t2 := setCell t1 c2.1 c2.2 { t1 c2.1 c2.2 with val := newTileVal u2 }
      some (t2, t0.2)

/-- The early-return `for` loops of `isLoss`, as decidable predicates:
some empty cell exists. -/
def anyEmpty (t : GridT) : Prop :=
  ∃ i j : Fin 4, (t i j).val = emptyTile

instance : Decidable (anyEmpty t) := inferInstanceAs (Decidable (∃ _, _))

/-- Some row contains two adjacent equal-valued tiles
(`g.Tiles[i][j].Val == g.Tiles[i][j+1].Val`). -/
def anyRowAdjacentEqual (t : GridT) : Prop :=
  ∃ i : Fin 4, ∃ j : Fin 3, (t i j.castSucc).val = (t i j.succ).val

instance : Decidable (anyRowAdjacentEqual t) := inferInstanceAs (Decidable (∃ _, _))

/-- `isLoss` from `grid.go`: no empty cell and no adjacent equal pair in any
row of the grid or of its transpose. -/
def isLoss (t : GridT) : Bool :=
  !decide (anyEmpty t) && !decide (anyRowAdjacentEqual t)
    && !decide (anyRowAdjacentEqual (transpose t))

/-- The cells of the grid in the iteration order of `HighestTile`. -/
def allCells : List Cell :=
  (allRows.map (fun i => allRows.map (fun j => ((i, j) : Cell)))).flatten

/-- `HighestTile` from `grid.go`: running maximum over all cells. -/
def highestTile (t : GridT) : Nat :=
  allCells.foldl (fun highest c =>
    if (t c.1 c.2).val > highest then (t c.1 c.2).val else highest) 0

/-- Game outcomes. -/
inductive Outcome where
  | none | win | lose
  deriving DecidableEq, Repr

/-- `Outcome` from `grid.go`: loss is checked before the 2048 win check. -/
def gridOutcome (t : GridT) : Outcome :=
  if isLoss t then Outcome.lose
  else if highestTile t ≥ 2048 then Outcome.win
  else Outcome.none

/-- Sum of the values of a row's tiles (empty cells contribute 0). -/
def rowSum (g : Row) : Nat := ∑ k : Fin 4, (g k).val

/-- Sum of all tile values on the grid: the summed multiset of non-empty
tile values. -/
def gridSum (t : GridT) : Nat := ∑ i : Fin 4, rowSum (t i)

/-- Number of empty cells in a row. -/
def rowEmpties (g : Row) : Nat := ∑ k : Fin 4, if (g k).val = emptyTile then 1 else 0

/-- Number of empty cells on the grid. -/
def gridEmpties (t : GridT) : Nat := ∑ i : Fin 4, rowEmpties (t i)

/-- Number of non-empty cells (`NumTiles` from `grid.go`). -/
def numTiles (t : GridT) : Nat :=
  ∑ i : Fin 4, ∑ j : Fin 4, if (t i j).val ≠ 0 then 1 else 0

/-- Weight of a row index for the movement measure: the distance the cell is
from the wall the tiles travel towards. -/
def idxWeight (rev : Bool) (k : Fin 4) : Nat := if rev then 3 - k.val else k.val

/-- Movement measure of a row: total distance of its non-empty tiles from the
direction-of-travel wall.  Every successful `moveStep` strictly decreases it. -/
def rowMeasure (rev : Bool) (g : Row) : Nat :=
  ∑ k : Fin 4, if (g k).val = emptyTile then 0 else idxWeight rev k

/-- The grid as seen by `moveStep` after `move`'s conditional transpose. -/
def orient (dir : Direction) (t : GridT) : GridT :=
  if isVertical dir then transpose t else t

/-- Movement measure of a grid for a direction. -/
def gridMeasure (dir : Direction) (t : GridT) : Nat :=
  ∑ i : Fin 4, rowMeasure (isReverse dir) (orient dir t i)

/-- A row is blocked for an orientation: every in-grid step has an empty
source, or a destination occupied by a different value. -/
def blockedRow (rev : Bool) (g : Row) : Prop :=
  ∀ i np : Fin 4, nextPos rev i = some np →
    (g i).val = emptyTile ∨ ((g np).val ≠ emptyTile ∧ (g np).val ≠ (g i).val)

instance : Decidable (blockedRow rev g) := inferInstanceAs (Decidable (∀ _, _))

/-- The grid admits no slide and no merge in the given direction. -/
def blockedGrid (dir : Direction) (t : GridT) : Prop :=
  ∀ r : Fin 4, blockedRow (isReverse dir) (orient dir t r)

instance : Decidable (blockedGrid dir t) := inferInstanceAs (Decidable (∀ _, _))

/-- A row on which `moveStep`'s scan over `idxs` finds nothing to do: every
index has an empty source, or a destination that is occupied and fails the
combine condition. -/
def stuckRow (rev : Bool) (idxs : List (Fin 4)) (g : Row) : Prop :=
  ∀ i ∈ idxs, ∀ np : Fin 4, nextPos rev i = some np →
    (g i).val = emptyTile ∨
      (¬((g np).val = (g i).val ∧ ((g i).cmb || (g np).cmb) = false) ∧
        (g np).val ≠ emptyTile)

/-- A grid every row of which (in the direction's orientation) is stuck:
a full pass of `move` finds nothing to do. -/
def stuckGrid (dir : Direction) (t : GridT) : Prop :=
  ∀ r : Fin 4, stuckRow (isReverse dir) (iterIdx (isReverse dir)) (orient dir t r)

/-- The given tile occurs somewhere on the grid. -/
def gridHasTile (t : GridT) (tile : Tile) : Prop :=
  ∃ i j : Fin 4, t i j = tile

instance : Decidable (gridHasTile t tile) := inferInstanceAs (Decidable (∃ _, _))

/-- A row with the four given values (flags clear, uuid 0). -/
def rowOf (a b c d : Nat) : Row := fun k =>
  match k with
  | 0 => ⟨a, false, 0⟩
  | 1 => ⟨b, false, 0⟩
  | 2 => ⟨c, false, 0⟩
  | 3 => ⟨d, false, 0⟩

/-- A grid whose first row is `g` and whose other rows are empty. -/
def gridOfRow (g : Row) : GridT := fun i =>
  if i = 0 then g else rowOf 0 0 0 0

/-- The spec's concrete example row `[2, 2, 4, 0]`. -/
def exGrid1 : GridT := gridOfRow (rowOf 2 2 4 0)

/-- The row `[2, 2, 2, 2]` (two merges in one `Move`). -/
def exGrid2 : GridT := gridOfRow (rowOf 2 2 2 2)

/-- The row `[4, 4, 2, 2]` (merges worth 8 then 4 in one `Move`). -/
def exGrid3 : GridT := gridOfRow (rowOf 4 4 2 2)

/-- A grid containing a single `2048` tile (and free cells). -/
def winGrid : GridT := gridOfRow (rowOf 2048 0 0 0)

/-- A fully populated grid with no two adjacent equal values that contains a
`2048` tile at the bottom-right corner. -/
def cexGrid : GridT := fun i =>
  match i with
  | 0 => rowOf 2 4 2 4
  | 1 => rowOf 4 2 4 2
  | 2 => rowOf 2 4 2 4
  | 3 => rowOf 4 2 4 2048

/-- A gridlocked checkerboard on which the tile at `(0,0)` still carries the
`Cmb` flag from a previous move. -/
def lockGrid : GridT := fun i j =>
  ⟨if (i.val + j.val) % 2 = 0 then 2 else 4, decide (i = 0 ∧ j = 0), 0⟩

/-- A grid with a single `2` tile at `(0,1)`. -/
def exGrid4 : GridT := gridOfRow (rowOf 0 2 0 0)

end Grid2048

namespace Sync2048

/-!
Model of the multiplayer screen's opponent-data handling
(`handleOpponentData`, `handleGameData`, `handleEventData`, `handleRequest`,
`sendGameData`, `requestOpponentGameData`).  The `comms` codec package is not
part of the repository snapshot, so the wire format is modelled from the
spec: a message is a typed envelope `{type, content}` whose content decodes
(or fails to decode) according to the type.
-/

/-- Game-session snapshots are opaque payloads to the synchronizer; they are
replaced wholesale, never inspected. -/
structure GameSnapshot where
  payload : Nat
  deriving DecidableEq, Repr

/-- Modelled from the spec: the four message type tags of the `comms`
package, plus `other` for any unknown tag. -/
inductive MsgKind where
  | playerData | gameData | eventData | requestData
  | other (tag : String)
  deriving DecidableEq, Repr

/-- Modelled from the spec: the two game events of the `comms` package. -/
inductive GameEvent where
  | screenLoaded | hostStartGame
  deriving DecidableEq, Repr

/-- Modelled from the spec: an opaque message content, abstracted by the
results of the per-type `Parse<Type>` decoders applied to it (`none` means
the decoder fails on these bytes). -/
structure WireContent where
  asGameData : Option GameSnapshot
  asEventData : Option GameEvent
  asRequestData : Option MsgKind
  deriving DecidableEq

/-- Modelled from the spec: the result of `comms.ParseMessage` on a received
byte payload — either a framing-level failure, or an envelope with a type
tag and content. -/
inductive RxBytes where
  | malformed
  | msg (kind : MsgKind) (content : WireContent)
  deriving DecidableEq

/-- The distinct error kinds returned by `handleOpponentData`. -/
inductive SyncError where
  | parseMessageFailure
  | parseContentFailure (kind : MsgKind)
  | unsupportedType (kind : MsgKind)
  deriving DecidableEq, Repr

/-- Messages sent to the opponent in response to received data. -/
inductive TxMsg where
  | gameData (snapshot : GameSnapshot)
  | requestData (request : MsgKind)
  deriving DecidableEq, Repr

/-- The synchronizer-relevant state of `MultiplayerScreen`: the local
authoritative Game Session and the mirrored opponent session. -/
structure ScreenState where
  ownGame : GameSnapshot
  opponentGame : GameSnapshot
  deriving DecidableEq, Repr

/-- `sendGameData`: serialise and send the local snapshot. -/
def sendGameData (st : ScreenState) : TxMsg := TxMsg.gameData st.ownGame

/-- `requestOpponentGameData`: send `RequestData{TypeGameData}`. -/
def requestOpponentGameData : TxMsg := TxMsg.requestData MsgKind.gameData

/-- `handleGameData`: replace the opponent mirror wholesale. -/
def handleGameData (st : ScreenState) (data : GameSnapshot) :
    ScreenState × List TxMsg :=
  ({ st with opponentGame := data }, [])

/-- `handleEventData`: on `ScreenLoaded`, send the local game data, then
request the opponent's; other events are ignored. -/
def handleEventData (st : ScreenState) (data : GameEvent) :
    ScreenState × List TxMsg :=
  match data with
  | GameEvent.screenLoaded => (st, [sendGameData st, requestOpponentGameData])
  | _ => (st, [])

/-- `handleRequest`: answer a `GameData` request with the local snapshot;
other request kinds are ignored. -/
def handleRequest (st : ScreenState) (data : MsgKind) : ScreenState × List TxMsg :=
  match data with
  | MsgKind.gameData => (st, [sendGameData st])
  | _ => (st, [])

/-- `handleOpponentData` from the multiplayer screen: parse the message,
dispatch on its type (`GameData`, `EventData`, `RequestData`; anything else
is unsupported), parse the content per type, and run the per-type handler.
Errors carry no new state: the caller logs them and continues. -/
def handleOpponentData (st : ScreenState) (data : RxBytes) :
    Except SyncError (ScreenState × List TxMsg) :=
  match data with
  | RxBytes.malformed => Except.error SyncError.parseMessageFailure
  | RxBytes.msg kind content =>
    match kind with
    | MsgKind.gameData =>
      match content.asGameData with
      | none => Except.error (SyncError.parseContentFailure MsgKind.gameData)
      | some d => Except.ok (handleGameData st d)
    | MsgKind.eventData =>
      match content.asEventData with
      | none => Except.error (SyncError.parseContentFailure MsgKind.eventData)
      | some e => Except.ok (handleEventData st e)
    | MsgKind.requestData =>
      match content.asRequestData with
      | none => Except.error (SyncError.parseContentFailure MsgKind.requestData)
      | some r => Except.ok (handleRequest st r)
    | k => Except.error (SyncError.unsupportedType k)

/-- The enclosing receive callback: on error the message is dropped and the
screen state is left unchanged. -/
def processOpponentData (st : ScreenState) (data : RxBytes) :
    ScreenState × List TxMsg :=
  match handleOpponentData st data with
  | Except.error _ => (st, [])
  | Except.ok r => r

/-- A payload that fails to decode: framing failure, an unsupported type
tag, or content that fails its per-type decoder. -/
def badPayload (data : RxBytes) : Prop :=
  match data with
  | RxBytes.malformed => True
  | RxBytes.msg kind content =>
    match kind with
    | MsgKind.gameData => content.asGameData = none
    | MsgKind.eventData => content.asEventData = none
    | MsgKind.requestData => content.asRequestData = none
    | _ => True

end Sync2048

open Grid2048 Sync2048

/-! ## Helper lemmas about sums over the four cells of a row -/

lemma sum_update_g {β : Type} (g : Fin 4 → β) (i : Fin 4) (a : β) (F : β → Fin 4 → Nat) :
    (∑ k : Fin 4, F (Function.update g i a k) k) + F (g i) i
      = (∑ k : Fin 4, F (g k) k) + F a i := by
  have key : ∀ h : Fin 4 → β, (∑ k : Fin 4, F (h k) k)
      = F (h i) i + ∑ k ∈ Finset.univ.erase i, F (h k) k := fun h =>
    (Finset.add_sum_erase Finset.univ (fun k => F (h k) k) (Finset.mem_univ i)).symm
  rw [key (Function.update g i a), key g, Function.update_same]
  have he : (∑ k ∈ Finset.univ.erase i, F (Function.update g i a k) k)
      = ∑ k ∈ Finset.univ.erase i, F (g k) k :=
    Finset.sum_congr rfl fun k hk => by
      rw [Function.update_noteq (Finset.ne_of_mem_erase hk)]
  rw [he]
  omega

lemma sum_update2_g {β : Type} (g : Fin 4 → β) (i np : Fin 4) (hne : i ≠ np) (A B : β)
    (F : β → Fin 4 → Nat) :
    (∑ k : Fin 4, F (Function.update (Function.update g np A) i B k) k)
        + F (g i) i + F (g np) np
      = (∑ k : Fin 4, F (g k) k) + F A np + F B i := by
  have h1 := sum_update_g g np A F
  have h2 := sum_update_g (Function.update g np A) i B F
  rw [Function.update_noteq hne] at h2
  omega

/-! ## Facts about the scan step -/

lemma nextPos_facts : ∀ (rev : Bool) (i np : Fin 4), nextPos rev i = some np →
    np ≠ i ∧ idxWeight rev np + 1 = idxWeight rev i := by
  decide

/-- Inversion for the row scan: it either does nothing, or performs exactly
one merge, or exactly one slide, at a step `i → np` of the iterator. -/
lemma moveStepAux_inv (rev : Bool) : ∀ (idxs : List (Fin 4)) (g : Row) (s : Nat),
    moveStepAux rev idxs g s = (g, false, 0, s) ∨
    ∃ i np : Fin 4, nextPos rev i = some np ∧ (g i).val ≠ emptyTile ∧
      (((g np).val = (g i).val ∧ (g i).cmb = false ∧ (g np).cmb = false ∧
          moveStepAux rev idxs g s
            = (mergeRow g i np s, true, (g np).val + (g i).val, s + 2)) ∨
        ((g np).val = emptyTile ∧
          moveStepAux rev idxs g s = (slideRow g i np s, true, 0, s + 1))) := by
  intro idxs
  induction idxs with
  | nil => exact fun g s => Or.inl rfl
  | cons i rest ih =>
    intro g s
    cases hnp : nextPos rev i with
    | none =>
      have heq : moveStepAux rev (i :: rest) g s = moveStepAux rev rest g s := by
        simp [moveStepAux, hnp]
      rw [heq]; exact ih g s
    | some np =>
      by_cases he : (g i).val = emptyTile
      · have heq : moveStepAux rev (i :: rest) g s = moveStepAux rev rest g s := by
          simp only [moveStepAux, hnp]
          rw [if_pos he]
        rw [heq]; exact ih g s
      · by_cases hc : (g np).val = (g i).val ∧ ((g i).cmb || (g np).cmb) = false
        · have heq : moveStepAux rev (i :: rest) g s
              = (mergeRow g i np s, true, (g np).val + (g i).val, s + 2) := by
            simp only [moveStepAux, hnp]
            rw [if_neg he, if_pos hc]
          have hb : (g i).cmb = false ∧ (g np).cmb = false := by simpa using hc.2
          exact Or.inr ⟨i, np, hnp, he, Or.inl ⟨hc.1, hb.1, hb.2, heq⟩⟩
        · by_cases hb : (g np).val = emptyTile
          · have heq : moveStepAux rev (i :: rest) g s
                = (slideRow g i np s, true, 0, s + 1) := by
              simp only [moveStepAux, hnp]
              rw [if_neg he, if_neg hc, if_neg (not_not.mpr hb)]
            exact Or.inr ⟨i, np, hnp, he, Or.inr ⟨hb, heq⟩⟩
          · have heq : moveStepAux rev (i :: rest) g s = moveStepAux rev rest g s := by
              simp only [moveStepAux, hnp]
              rw [if_neg he, if_neg hc, if_pos hb]
            rw [heq]; exact ih g s

/-! ## Row-level consequences of the inversion lemma -/

lemma moveStepAux_false (rev : Bool) (idxs : List (Fin 4)) (g : Row) (s : Nat)
    (h : (moveStepAux rev idxs g s).2.1 = false) :
    moveStepAux rev idxs g s = (g, false, 0, s) := by
  rcases moveStepAux_inv rev idxs g s with heq | ⟨i, np, _, _, hcase⟩
  · exact heq
  · rcases hcase with ⟨_, _, _, heq⟩ | ⟨_, heq⟩ <;> rw [heq] at h <;> simp at h

lemma moveStepAux_sum (rev : Bool) (idxs : List (Fin 4)) (g : Row) (s : Nat) :
    rowSum (moveStepAux rev idxs g s).1 = rowSum g := by
  rcases moveStepAux_inv rev idxs g s with heq | ⟨i, np, hnp, hsrc, hcase⟩
  · rw [heq]
  · have hne : i ≠ np := ((nextPos_facts rev i np hnp).1).symm
    rcases hcase with ⟨hval, _, _, heq⟩ | ⟨hempty, heq⟩
    · rw [heq]
      have h2 := sum_update2_g g i np hne ⟨(g np).val + (g i).val, true, s⟩
        ⟨emptyTile, (g i).cmb, s + 1⟩ (fun t _ => t.val)
      simp only [rowSum, mergeRow, emptyTile] at h2 ⊢
      omega
    · rw [heq]
      have h2 := sum_update2_g g i np hne (g i) ⟨emptyTile, false, s⟩ (fun t _ => t.val)
      simp only [rowSum, slideRow, emptyTile] at h2 ⊢
      simp only [emptyTile] at hempty
      omega

lemma moveStepAux_empties (rev : Bool) (idxs : List (Fin 4)) (g : Row) (s : Nat) :
    rowEmpties g ≤ rowEmpties (moveStepAux rev idxs g s).1 ∧
      ((moveStepAux rev idxs g s).2.1 = true →
        1 ≤ rowEmpties (moveStepAux rev idxs g s).1) := by
  rcases moveStepAux_inv rev idxs g s with heq | ⟨i, np, hnp, hsrc, hcase⟩
  · rw [heq]; exact ⟨le_refl _, by simp⟩
  · have hne : i ≠ np := ((nextPos_facts rev i np hnp).1).symm
    simp only [emptyTile] at hsrc
    rcases hcase with ⟨hval, _, _, heq⟩ | ⟨hempty, heq⟩
    · rw [heq]
      have h2 := sum_update2_g g i np hne ⟨(g np).val + (g i).val, true, s⟩
        ⟨emptyTile, (g i).cmb, s + 1⟩ (fun t k => if t.val = emptyTile then 1 else 0)
      have hnp0 : ¬((g np).val = 0) := by rw [hval]; exact hsrc
      have hplus : ¬((g np).val + (g i).val = 0) := by omega
      have h3 := @Finset.single_le_sum (Fin 4) ℕ _
        (fun k => if ((mergeRow g i np s) k).val = emptyTile then 1 else 0)
        Finset.univ (fun k _ => Nat.zero_le _) i (Finset.mem_univ i)
      simp only [mergeRow, Function.update_same, emptyTile, if_pos trivial] at h3
      simp only [rowEmpties, mergeRow, emptyTile] at h2 ⊢
      simp only [if_neg hsrc, if_neg hnp0, if_neg hplus, if_pos trivial] at h2
      exact ⟨by linarith, fun _ => by linarith [h3]⟩
    · rw [heq]
      simp only [emptyTile] at hempty
      have h2 := sum_update2_g g i np hne (g i) ⟨emptyTile, false, s⟩
        (fun t k => if t.val = emptyTile then 1 else 0)
      have h3 := @Finset.single_le_sum (Fin 4) ℕ _
        (fun k => if (g k).val = emptyTile then 1 else 0) Finset.univ
        (fun k _ => Nat.zero_le _) np (Finset.mem_univ np)
      simp only [rowEmpties, slideRow, emptyTile] at h2 h3 ⊢
      simp only [if_neg hsrc, if_pos hempty, if_pos trivial] at h2 h3
      exact ⟨by linarith, fun _ => by linarith⟩

lemma moveStepAux_measure (rev : Bool) (idxs : List (Fin 4)) (g : Row) (s : Nat)
    (h : (moveStepAux rev idxs g s).2.1 = true) :
    rowMeasure rev (moveStepAux rev idxs g s).1 < rowMeasure rev g := by
  rcases moveStepAux_inv rev idxs g s with heq | ⟨i, np, hnp, hsrc, hcase⟩
  · rw [heq] at h; simp at h
  · have hfacts := nextPos_facts rev i np hnp
    have hne : i ≠ np := hfacts.1.symm
    have hw : idxWeight rev np + 1 = idxWeight rev i := hfacts.2
    simp only [emptyTile] at hsrc
    rcases hcase with ⟨hval, _, _, heq⟩ | ⟨hempty, heq⟩
    · rw [heq]
      have h2 := sum_update2_g g i np hne ⟨(g np).val + (g i).val, true, s⟩
        ⟨emptyTile, (g i).cmb, s + 1⟩
        (fun t k => if t.val = emptyTile then 0 else idxWeight rev k)
      have hnp0 : ¬((g np).val = 0) := by rw [hval]; exact hsrc
      have hplus : ¬((g np).val + (g i).val = 0) := by omega
      simp only [rowMeasure, mergeRow, emptyTile] at h2 ⊢
      simp only [if_neg hsrc, if_neg hnp0, if_neg hplus, if_pos trivial] at h2
      linarith
    · rw [heq]
      simp only [emptyTile] at hempty
      have h2 := sum_update2_g g i np hne (g i) ⟨emptyTile, false, s⟩
        (fun t k => if t.val = emptyTile then 0 else idxWeight rev k)
      simp only [rowMeasure, slideRow, emptyTile] at h2 ⊢
      simp only [if_neg hsrc, if_pos hempty, if_pos trivial] at h2
      linarith

lemma moveStepAux_persist (rev : Bool) (idxs : List (Fin 4)) (g : Row) (s : Nat)
    (v u : Nat) (hv : v ≠ 0) (h : ∃ k, g k = ⟨v, true, u⟩) :
    ∃ k, (moveStepAux rev idxs g s).1 k = ⟨v, true, u⟩ := by
  obtain ⟨k, hk⟩ := h
  rcases moveStepAux_inv rev idxs g s with heq | ⟨i, np, hnp, hsrc, hcase⟩
  · rw [heq]; exact ⟨k, hk⟩
  · have hne : i ≠ np := ((nextPos_facts rev i np hnp).1).symm
    rcases hcase with ⟨hval, hci, hcn, heq⟩ | ⟨hempty, heq⟩
    · rw [heq]
      have hki : k ≠ i := by rintro rfl; rw [hk] at hci; simp at hci
      have hkn : k ≠ np := by rintro rfl; rw [hk] at hcn; simp at hcn
      refine ⟨k, ?_⟩
      simp only [mergeRow]
      rw [Function.update_noteq hki, Function.update_noteq hkn]
      exact hk
    · rw [heq]
      by_cases hki : k = i
      · refine ⟨np, ?_⟩
        simp only [slideRow]
        rw [Function.update_noteq (Ne.symm hne), Function.update_same]
        rw [← hki]; exact hk
      · have hkn : k ≠ np := by
          rintro rfl
          rw [hk] at hempty
          simp only [emptyTile] at hempty
          exact hv hempty
        refine ⟨k, ?_⟩
        simp only [slideRow]
        rw [Function.update_noteq hki, Function.update_noteq hkn]
        exact hk

/-! ## Stuck rows: the scan finds nothing to do -/

lemma blockedRow_stuckRow (rev : Bool) (idxs : List (Fin 4)) (g : Row)
    (h : blockedRow rev g) : stuckRow rev idxs g := by
  intro i _ np hnp
  rcases h i np hnp with he | ⟨hne0, hnev⟩
  · exact Or.inl he
  · exact Or.inr ⟨fun hc => hnev hc.1, hne0⟩

lemma moveStepAux_of_stuck (rev : Bool) :
    ∀ (idxs : List (Fin 4)) (g : Row) (s : Nat), stuckRow rev idxs g →
      moveStepAux rev idxs g s = (g, false, 0, s) := by
  intro idxs
  induction idxs with
  | nil => intro g s _; rfl
  | cons i rest ih =>
    intro g s hst
    have htail : stuckRow rev rest g := fun j hj => hst j (List.mem_cons_of_mem _ hj)
    cases hnp : nextPos rev i with
    | none =>
      simp only [moveStepAux, hnp]
      exact ih g s htail
    | some np =>
      rcases hst i (List.mem_cons_self _ _) np hnp with he | ⟨hnc, hne0⟩
      · simp only [moveStepAux, hnp]
        rw [if_pos he]
        exact ih g s htail
      · by_cases he : (g i).val = emptyTile
        · simp only [moveStepAux, hnp]
          rw [if_pos he]
          exact ih g s htail
        · simp only [moveStepAux, hnp]
          rw [if_neg he, if_neg hnc, if_pos hne0]
          exact ih g s htail

lemma moveStepAux_stuck_of_not_moved (rev : Bool) :
    ∀ (idxs : List (Fin 4)) (g : Row) (s : Nat),
      (moveStepAux rev idxs g s).2.1 = false → stuckRow rev idxs g := by
  intro idxs
  induction idxs with
  | nil => intro g s _ j hj; exact absurd hj (List.not_mem_nil j)
  | cons i rest ih =>
    intro g s h j hj np' hnp'
    cases hnp : nextPos rev i with
    | none =>
      rcases List.mem_cons.mp hj with rfl | hjr
      · rw [hnp'] at hnp; exact Option.noConfusion hnp
      · have heq : moveStepAux rev (i :: rest) g s = moveStepAux rev rest g s := by
          simp only [moveStepAux, hnp]
        rw [heq] at h
        exact ih g s h j hjr np' hnp'
    | some np =>
      by_cases he : (g i).val = emptyTile
      · have heq : moveStepAux rev (i :: rest) g s = moveStepAux rev rest g s := by
          simp only [moveStepAux, hnp]; rw [if_pos he]
        rw [heq] at h
        rcases List.mem_cons.mp hj with rfl | hjr
        · exact Or.inl he
        · exact ih g s h j hjr np' hnp'
      · by_cases hc : (g np).val = (g i).val ∧ ((g i).cmb || (g np).cmb) = false
        · have heq : moveStepAux rev (i :: rest) g s
              = (mergeRow g i np s, true, (g np).val + (g i).val, s + 2) := by
            simp only [moveStepAux, hnp]; rw [if_neg he, if_pos hc]
          rw [heq] at h
          simp at h
        · by_cases hb : (g np).val = emptyTile
          · have heq : moveStepAux rev (i :: rest) g s
                = (slideRow g i np s, true, 0, s + 1) := by
              simp only [moveStepAux, hnp]
              rw [if_neg he, if_neg hc, if_neg (not_not.mpr hb)]
            rw [heq] at h
            simp at h
          · have heq : moveStepAux rev (i :: rest) g s = moveStepAux rev rest g s := by
              simp only [moveStepAux, hnp]; rw [if_neg he, if_neg hc, if_pos hb]
            rw [heq] at h
            rcases List.mem_cons.mp hj with rfl | hjr
            · have : np' = np := by rw [hnp] at hnp'; exact (Option.some.inj hnp').symm
              subst this
              exact Or.inr ⟨hc, hb⟩
            · exact ih g s h j hjr np' hnp'

/-! ## Orientation algebra and the per-row pass -/

lemma orient_orient (dir : Direction) (t : GridT) : orient dir (orient dir t) = t := by
  cases hv : isVertical dir
  · simp [orient, hv]
  · simp only [orient, hv, if_true]
    rfl

lemma passRow_eq (dir : Direction) (t : GridT) (r : Fin 4) (s : Nat) :
    passRow dir t r s
      = (orient dir (Function.update (orient dir t) r
          (moveStep (orient dir t r) dir s).1),
         (moveStep (orient dir t r) dir s).2) := by
  cases hv : isVertical dir <;> simp [passRow, orient, hv]

lemma sum_rows_update (t : GridT) (r : Fin 4) (row : Row) (RF : Row → Nat) :
    (∑ i : Fin 4, RF (Function.update t r row i)) + RF (t r)
      = (∑ i : Fin 4, RF (t i)) + RF row :=
  sum_update_g t r row (fun rr _ => RF rr)

lemma gridSum_orient (dir : Direction) (t : GridT) :
    (∑ i : Fin 4, rowSum (orient dir t i)) = gridSum t := by
  cases hv : isVertical dir
  · simp [orient, hv, gridSum]
  · simp only [orient, hv, if_true, gridSum, rowSum, transpose]
    exact Finset.sum_comm

lemma gridEmpties_orient (dir : Direction) (t : GridT) :
    (∑ i : Fin 4, rowEmpties (orient dir t i)) = gridEmpties t := by
  cases hv : isVertical dir
  · simp [orient, hv, gridEmpties]
  · simp only [orient, hv, if_true, gridEmpties, rowEmpties, transpose]
    exact Finset.sum_comm

lemma gridMeasure_orient (dir : Direction) (t : GridT) :
    gridMeasure dir t = ∑ i : Fin 4, rowMeasure (isReverse dir) (orient dir t i) := rfl

lemma gridHasTile_orient (dir : Direction) (t : GridT) (tile : Tile) :
    gridHasTile (orient dir t) tile ↔ gridHasTile t tile := by
  cases hv : isVertical dir
  · simp [orient, hv]
  · simp only [orient, hv, if_true, gridHasTile, transpose]
    exact ⟨fun ⟨i, j, h⟩ => ⟨j, i, h⟩, fun ⟨i, j, h⟩ => ⟨j, i, h⟩⟩

lemma moveStep_eq (g : Row) (dir : Direction) (s : Nat) :
    moveStep g dir s = moveStepAux (isReverse dir) (iterIdx (isReverse dir)) g s := rfl

lemma passRow_false (dir : Direction) (t : GridT) (r : Fin 4) (s : Nat)
    (h : (passRow dir t r s).2.1 = false) :
    passRow dir t r s = (t, false, 0, s) := by
  rw [passRow_eq] at h
  simp only [moveStep_eq] at h
  have h2 := moveStepAux_false (isReverse dir) (iterIdx (isReverse dir))
    (orient dir t r) s h
  rw [passRow_eq]
  simp only [moveStep_eq, h2, Function.update_eq_self, orient_orient]

lemma passRow_measure_lt (dir : Direction) (t : GridT) (r : Fin 4) (s : Nat)
    (h : (passRow dir t r s).2.1 = true) :
    gridMeasure dir (passRow dir t r s).1 < gridMeasure dir t := by
  rw [passRow_eq] at h ⊢
  simp only [moveStep_eq] at h ⊢
  have hrow := moveStepAux_measure (isReverse dir) (iterIdx (isReverse dir))
    (orient dir t r) s h
  rw [gridMeasure_orient, gridMeasure_orient, orient_orient]
  have hs := sum_rows_update (orient dir t) r
    (moveStepAux (isReverse dir) (iterIdx (isReverse dir)) (orient dir t r) s).1
    (rowMeasure (isReverse dir))
  omega

lemma passRow_sum (dir : Direction) (t : GridT) (r : Fin 4) (s : Nat) :
    gridSum (passRow dir t r s).1 = gridSum t := by
  rw [passRow_eq]
  simp only [moveStep_eq]
  have hrow := moveStepAux_sum (isReverse dir) (iterIdx (isReverse dir))
    (orient dir t r) s
  rw [← gridSum_orient dir, orient_orient, ← gridSum_orient dir t]
  have hs := sum_rows_update (orient dir t) r
    (moveStepAux (isReverse dir) (iterIdx (isReverse dir)) (orient dir t r) s).1
    rowSum
  omega

lemma passRow_empties (dir : Direction) (t : GridT) (r : Fin 4) (s : Nat) :
    gridEmpties t ≤ gridEmpties (passRow dir t r s).1 ∧
      ((passRow dir t r s).2.1 = true → 1 ≤ gridEmpties (passRow dir t r s).1) := by
  rw [passRow_eq]
  simp only [moveStep_eq]
  have hrow := moveStepAux_empties (isReverse dir) (iterIdx (isReverse dir))
    (orient dir t r) s
  have hg : gridEmpties (orient dir (Function.update (orient dir t) r
        (moveStepAux (isReverse dir) (iterIdx (isReverse dir)) (orient dir t r) s).1))
      = ∑ i : Fin 4, rowEmpties (Function.update (orient dir t) r
        (moveStepAux (isReverse dir) (iterIdx (isReverse dir)) (orient dir t r) s).1 i) := by
    rw [← gridEmpties_orient dir (orient dir (Function.update (orient dir t) r
      (moveStepAux (isReverse dir) (iterIdx (isReverse dir)) (orient dir t r) s).1))]
    rw [orient_orient]
  rw [hg, ← gridEmpties_orient dir t]
  have hs := sum_rows_update (orient dir t) r
    (moveStepAux (isReverse dir) (iterIdx (isReverse dir)) (orient dir t r) s).1
    rowEmpties
  have hterm := @Finset.single_le_sum (Fin 4) ℕ _
    (fun i => rowEmpties (Function.update (orient dir t) r
      (moveStepAux (isReverse dir) (iterIdx (isReverse dir)) (orient dir t r) s).1 i))
    Finset.univ (fun k _ => Nat.zero_le _) r (Finset.mem_univ r)
  simp only [Function.update_same] at hterm
  exact ⟨by omega, fun hm => by have := hrow.2 hm; omega⟩

lemma passRow_persist (dir : Direction) (t : GridT) (r : Fin 4) (s : Nat)
    (v u : Nat) (hv : v ≠ 0) (h : gridHasTile t ⟨v, true, u⟩) :
    gridHasTile (passRow dir t r s).1 ⟨v, true, u⟩ := by
  rw [passRow_eq]
  simp only [moveStep_eq]
  rw [← gridHasTile_orient dir, orient_orient]
  rw [← gridHasTile_orient dir] at h
  obtain ⟨i, j, hij⟩ := h
  by_cases hir : i = r
  · subst hir
    have hrow := moveStepAux_persist (isReverse dir) (iterIdx (isReverse dir))
      (orient dir t i) s v u hv ⟨j, hij⟩
    obtain ⟨k, hk⟩ := hrow
    exact ⟨i, k, by rw [Function.update_same]; exact hk⟩
  · exact ⟨i, j, by rw [Function.update_noteq hir]; exact hij⟩

/-! ## Full-pass lemmas -/

lemma passRow_of_stuck (dir : Direction) (t : GridT) (r : Fin 4) (s : Nat)
    (h : stuckRow (isReverse dir) (iterIdx (isReverse dir)) (orient dir t r)) :
    passRow dir t r s = (t, false, 0, s) := by
  rw [passRow_eq]
  simp only [moveStep_eq, moveStepAux_of_stuck (isReverse dir) (iterIdx (isReverse dir))
    (orient dir t r) s h, Function.update_eq_self, orient_orient]

lemma passRows_mv_true (dir : Direction) :
    ∀ (rows : List (Fin 4)) (t : GridT) (pts s : Nat),
      (passRows dir rows t true pts s).2.1 = true := by
  intro rows
  induction rows with
  | nil => intro t pts s; rfl
  | cons r rest ih =>
    intro t pts s
    simp only [passRows, Bool.true_or]
    exact ih _ _ _

lemma passRows_sum (dir : Direction) :
    ∀ (rows : List (Fin 4)) (t : GridT) (mv : Bool) (pts s : Nat),
      gridSum (passRows dir rows t mv pts s).1 = gridSum t := by
  intro rows
  induction rows with
  | nil => intro t mv pts s; rfl
  | cons r rest ih =>
    intro t mv pts s
    simp only [passRows]
    rw [ih]
    exact passRow_sum dir t r s

lemma passRows_measure (dir : Direction) :
    ∀ (rows : List (Fin 4)) (t : GridT) (mv : Bool) (pts s : Nat),
      gridMeasure dir (passRows dir rows t mv pts s).1 ≤ gridMeasure dir t ∧
        (mv = false → (passRows dir rows t mv pts s).2.1 = true →
          gridMeasure dir (passRows dir rows t mv pts s).1 < gridMeasure dir t) := by
  intro rows
  induction rows with
  | nil =>
    intro t mv pts s
    refine ⟨le_refl _, fun h1 h2 => ?_⟩
    simp only [passRows] at h2
    rw [h1] at h2
    simp at h2
  | cons r rest ih =>
    intro t mv pts s
    simp only [passRows]
    cases hm : (passRow dir t r s).2.1
    · rw [passRow_false dir t r s hm]
      simp only [Bool.or_false]
      exact ih t mv pts s
    · have hlt := passRow_measure_lt dir t r s hm
      refine ⟨le_trans (ih _ _ _ _).1 (le_of_lt hlt),
        fun _ _ => lt_of_le_of_lt (ih _ _ _ _).1 hlt⟩

lemma passRows_empties (dir : Direction) :
    ∀ (rows : List (Fin 4)) (t : GridT) (mv : Bool) (pts s : Nat),
      gridEmpties t ≤ gridEmpties (passRows dir rows t mv pts s).1 ∧
        (mv = false → (passRows dir rows t mv pts s).2.1 = true →
          1 ≤ gridEmpties (passRows dir rows t mv pts s).1) := by
  intro rows
  induction rows with
  | nil =>
    intro t mv pts s
    refine ⟨le_refl _, fun h1 h2 => ?_⟩
    simp only [passRows] at h2
    rw [h1] at h2
    simp at h2
  | cons r rest ih =>
    intro t mv pts s
    simp only [passRows]
    cases hm : (passRow dir t r s).2.1
    · rw [passRow_false dir t r s hm]
      simp only [Bool.or_false]
      exact ih t mv pts s
    · have he := passRow_empties dir t r s
      have hpos := he.2 hm
      refine ⟨le_trans he.1 (ih _ _ _ _).1, fun _ _ => le_trans hpos (ih _ _ _ _).1⟩

lemma passRows_persist (dir : Direction) :
    ∀ (rows : List (Fin 4)) (t : GridT) (mv : Bool) (pts s : Nat) (v u : Nat),
      v ≠ 0 → gridHasTile t ⟨v, true, u⟩ →
        gridHasTile (passRows dir rows t mv pts s).1 ⟨v, true, u⟩ := by
  intro rows
  induction rows with
  | nil => intro t mv pts s v u _ h; exact h
  | cons r rest ih =>
    intro t mv pts s v u hv h
    simp only [passRows]
    exact ih _ _ _ _ v u hv (passRow_persist dir t r s v u hv h)

lemma passRows_of_stuck (dir : Direction) :
    ∀ (rows : List (Fin 4)) (t : GridT) (mv : Bool) (pts s : Nat),
      stuckGrid dir t → passRows dir rows t mv pts s = (t, mv, pts, s) := by
  intro rows
  induction rows with
  | nil => intro t mv pts s _; rfl
  | cons r rest ih =>
    intro t mv pts s hst
    simp only [passRows]
    rw [passRow_of_stuck dir t r s (hst r)]
    simp only [Bool.or_false]
    exact ih t mv pts s hst

lemma passRows_not_moved (dir : Direction) :
    ∀ (rows : List (Fin 4)) (t : GridT) (mv : Bool) (pts s : Nat),
      (passRows dir rows t mv pts s).2.1 = false →
        (passRows dir rows t mv pts s).1 = t ∧
          ∀ r ∈ rows, stuckRow (isReverse dir) (iterIdx (isReverse dir)) (orient dir t r) := by
  intro rows
  induction rows with
  | nil =>
    intro t mv pts s _
    exact ⟨rfl, fun r hr => absurd hr (List.not_mem_nil r)⟩
  | cons r rest ih =>
    intro t mv pts s h
    cases hm : (passRow dir t r s).2.1
    · have hf := passRow_false dir t r s hm
      simp only [passRows] at h ⊢
      rw [hf] at h ⊢
      simp only [Bool.or_false] at h ⊢
      obtain ⟨h1, h2⟩ := ih t mv pts s h
      refine ⟨h1, fun r' hr' => ?_⟩
      rcases List.mem_cons.mp hr' with rfl | hrr
      · have hms : (moveStepAux (isReverse dir) (iterIdx (isReverse dir))
            (orient dir t r') s).2.1 = false := by
          rw [passRow_eq] at hm
          exact hm
        exact moveStepAux_stuck_of_not_moved (isReverse dir) _ _ _ hms
      · exact h2 r' hrr
    · exfalso
      simp only [passRows] at h
      rw [hm] at h
      simp only [Bool.or_true] at h
      rw [passRows_mv_true dir rest _ _ _] at h
      simp at h

/-! ## The outer move loop -/

lemma moveLoop_sum (dir : Direction) :
    ∀ (fuel : Nat) (t : GridT) (mv : Bool) (pts s : Nat),
      gridSum (moveLoop dir fuel t mv pts s).1 = gridSum t := by
  intro fuel
  induction fuel with
  | zero => intro t mv pts s; rfl
  | succ fuel ih =>
    intro t mv pts s
    simp only [moveLoop]
    cases hm : (passRows dir allRows t false pts s).2.1
    · simp only [hm, Bool.false_eq_true, if_false]
      exact passRows_sum dir allRows t false pts s
    · simp only [hm, if_true]
      rw [ih]
      exact passRows_sum dir allRows t false pts s

lemma moveLoop_empties (dir : Direction) :
    ∀ (fuel : Nat) (t : GridT) (mv : Bool) (pts s : Nat),
      gridEmpties t ≤ gridEmpties (moveLoop dir fuel t mv pts s).1 ∧
        (mv = false → (moveLoop dir fuel t mv pts s).2.1 = true →
          1 ≤ gridEmpties (moveLoop dir fuel t mv pts s).1) := by
  intro fuel
  induction fuel with
  | zero =>
    intro t mv pts s
    refine ⟨le_refl _, fun h1 h2 => ?_⟩
    simp only [moveLoop] at h2
    rw [h1] at h2
    simp at h2
  | succ fuel ih =>
    intro t mv pts s
    simp only [moveLoop]
    have he := passRows_empties dir allRows t false pts s
    cases hm : (passRows dir allRows t false pts s).2.1
    · simp only [hm, Bool.false_eq_true, if_false]
      refine ⟨he.1, fun h1 h2 => ?_⟩
      rw [h1] at h2
      simp at h2
    · simp only [hm, if_true]
      have hpos := he.2 rfl hm
      exact ⟨le_trans he.1 (ih _ _ _ _).1,
        fun _ _ => le_trans hpos (ih _ _ _ _).1⟩

lemma moveLoop_persist (dir : Direction) :
    ∀ (fuel : Nat) (t : GridT) (mv : Bool) (pts s : Nat) (v u : Nat),
      v ≠ 0 → gridHasTile t ⟨v, true, u⟩ →
        gridHasTile (moveLoop dir fuel t mv pts s).1 ⟨v, true, u⟩ := by
  intro fuel
  induction fuel with
  | zero => intro t mv pts s v u _ h; exact h
  | succ fuel ih =>
    intro t mv pts s v u hv h
    simp only [moveLoop]
    cases hm : (passRows dir allRows t false pts s).2.1
    · simp only [hm, Bool.false_eq_true, if_false]
      exact passRows_persist dir allRows t false pts s v u hv h
    · simp only [hm, if_true]
      exact ih _ _ _ _ v u hv (passRows_persist dir allRows t false pts s v u hv h)

lemma moveLoop_stuck (dir : Direction) :
    ∀ (fuel : Nat) (t : GridT) (mv : Bool) (pts s : Nat),
      gridMeasure dir t < fuel → stuckGrid dir (moveLoop dir fuel t mv pts s).1 := by
  intro fuel
  induction fuel with
  | zero => intro t mv pts s h; exact absurd h (Nat.not_lt_zero _)
  | succ fuel ih =>
    intro t mv pts s h
    simp only [moveLoop]
    cases hm : (passRows dir allRows t false pts s).2.1
    · simp only [hm, Bool.false_eq_true, if_false]
      obtain ⟨h1, h2⟩ := passRows_not_moved dir allRows t false pts s hm
      rw [h1]
      intro r
      exact h2 r (by fin_cases r <;> decide)
    · simp only [hm, if_true]
      have hlt := (passRows_measure dir allRows t false pts s).2 rfl hm
      exact ih _ _ _ _ (by omega)

lemma rowMeasure_le (rev : Bool) (g : Row) : rowMeasure rev g ≤ 6 := by
  have h1 : rowMeasure rev g ≤ ∑ k : Fin 4, idxWeight rev k :=
    Finset.sum_le_sum (fun k _ => by
      by_cases h : (g k).val = emptyTile <;> simp [rowMeasure, h])
  have h6 : (∑ k : Fin 4, idxWeight rev k) = 6 := by cases rev <;> decide
  omega

lemma gridMeasure_le (dir : Direction) (t : GridT) : gridMeasure dir t ≤ 24 := by
  have h1 : gridMeasure dir t ≤ ∑ _i : Fin 4, 6 :=
    Finset.sum_le_sum (fun i _ => rowMeasure_le (isReverse dir) (orient dir t i))
  have h24 : (∑ _i : Fin 4, (6 : ℕ)) = 24 := by decide
  omega

/-! ## moveGo-level lemmas -/

lemma gridSum_clearCmb (t : GridT) : gridSum (clearCmb t) = gridSum t := rfl

lemma gridEmpties_clearCmb (t : GridT) : gridEmpties (clearCmb t) = gridEmpties t := rfl

lemma moveGo_sum (t : GridT) (dir : Direction) (s : Nat) :
    gridSum (moveGo t dir s).1 = gridSum t := by
  unfold moveGo
  rw [moveLoop_sum, gridSum_clearCmb]

lemma moveGo_stuck (t : GridT) (dir : Direction) (s : Nat) :
    stuckGrid dir (moveGo t dir s).1 := by
  unfold moveGo
  exact moveLoop_stuck dir moveFuel (clearCmb t) false 0 s
    (lt_of_le_of_lt (gridMeasure_le dir (clearCmb t)) (by norm_num [moveFuel]))

lemma moveGo_empties (t : GridT) (dir : Direction) (s : Nat)
    (h : (moveGo t dir s).2.1 = true) : 1 ≤ gridEmpties (moveGo t dir s).1 := by
  unfold moveGo at h ⊢
  exact (moveLoop_empties dir moveFuel (clearCmb t) false 0 s).2 rfl h

lemma moveLoop_stuck_start (dir : Direction) (fuel : Nat) (t : GridT)
    (mv : Bool) (pts s : Nat) (h : stuckGrid dir t) :
    moveLoop dir (fuel + 1) t mv pts s = (t, mv, pts, s) := by
  simp only [moveLoop]
  rw [passRows_of_stuck dir allRows t false pts s h]
  simp only [Bool.false_eq_true, if_false, Bool.or_false]

lemma orient_clearCmb_val (dir : Direction) (t : GridT) (r k : Fin 4) :
    ((orient dir (clearCmb t)) r k).val = ((orient dir t) r k).val := by
  cases hv : isVertical dir <;> simp [orient, hv, clearCmb, transpose]

lemma blockedRow_val_congr (rev : Bool) (g g' : Row)
    (h : ∀ k, (g k).val = (g' k).val) (hb : blockedRow rev g) : blockedRow rev g' := by
  intro i np hnp
  rcases hb i np hnp with he | ⟨h1, h2⟩
  · exact Or.inl (by rw [← h i]; exact he)
  · exact Or.inr ⟨by rw [← h np]; exact h1, by rw [← h np, ← h i]; exact h2⟩

lemma blocked_stuck_clearCmb (dir : Direction) (t : GridT)
    (h : blockedGrid dir t) : stuckGrid dir (clearCmb t) := by
  intro r
  apply blockedRow_stuckRow
  exact blockedRow_val_congr (isReverse dir) (orient dir t r) (orient dir (clearCmb t) r)
    (fun k => (orient_clearCmb_val dir t r k).symm) (h r)

lemma moveGo_blocked (t : GridT) (dir : Direction) (s : Nat)
    (h : blockedGrid dir t) : moveGo t dir s = (clearCmb t, false, 0, s) := by
  unfold moveGo
  rw [show moveFuel = 48 + 1 from rfl]
  exact moveLoop_stuck_start dir 48 (clearCmb t) false 0 s (blocked_stuck_clearCmb dir t h)

/-! ## HighestTile, isLoss and Outcome -/

lemma foldl_max_le (t : GridT) :
    ∀ (l : List Cell) (a : Nat),
      a ≤ l.foldl (fun highest c =>
        if (t c.1 c.2).val > highest then (t c.1 c.2).val else highest) a ∧
      ∀ c ∈ l, (t c.1 c.2).val ≤ l.foldl (fun highest c =>
        if (t c.1 c.2).val > highest then (t c.1 c.2).val else highest) a := by
  intro l
  induction l with
  | nil => exact fun a => ⟨le_refl _, fun c hc => absurd hc (List.not_mem_nil c)⟩
  | cons c0 l ih =>
    intro a
    have hstep : a ≤ if (t c0.1 c0.2).val > a then (t c0.1 c0.2).val else a := by
      split <;> omega
    have hstep2 : (t c0.1 c0.2).val
        ≤ if (t c0.1 c0.2).val > a then (t c0.1 c0.2).val else a := by
      split <;> omega
    refine ⟨le_trans hstep (ih _).1, fun c hc => ?_⟩
    rcases List.mem_cons.mp hc with rfl | hcl
    · exact le_trans hstep2 (ih _).1
    · exact (ih _).2 c hcl

lemma mem_allCells (c : Cell) : c ∈ allCells := by
  fin_cases c <;> decide

lemma le_highestTile (t : GridT) (i j : Fin 4) : (t i j).val ≤ highestTile t :=
  (foldl_max_le t allCells 0).2 (i, j) (mem_allCells (i, j))

lemma isLoss_of_full_noadj (t : GridT)
    (h1 : ∀ i j : Fin 4, (t i j).val ≠ emptyTile)
    (h2 : ∀ (i : Fin 4) (j : Fin 3), (t i j.castSucc).val ≠ (t i j.succ).val)
    (h3 : ∀ (i : Fin 4) (j : Fin 3), (t j.castSucc i).val ≠ (t j.succ i).val) :
    isLoss t = true := by
  simp only [isLoss, Bool.and_eq_true, Bool.not_eq_true', decide_eq_false_iff_not]
  refine ⟨⟨fun ⟨i, j, hij⟩ => h1 i j hij, fun ⟨i, j, hij⟩ => h2 i j hij⟩,
    fun ⟨i, j, hij⟩ => h3 i j hij⟩

/-! ## Spawn, reset and their loops -/

lemma firstEmptyPick_isSome (t : GridT) :
    ∀ (picks : List Cell), (∃ c ∈ picks, (t c.1 c.2).val = emptyTile) →
      (firstEmptyPick t picks).isSome = true := by
  intro picks
  induction picks with
  | nil => rintro ⟨c, hc, _⟩; exact absurd hc (List.not_mem_nil c)
  | cons c0 rest ih =>
    rintro ⟨c, hc, hce⟩
    by_cases h0 : (t c0.1 c0.2).val = emptyTile
    · simp [firstEmptyPick, h0]
    · rcases List.mem_cons.mp hc with rfl | hcl
      · exact absurd hce h0
      · simp only [firstEmptyPick, if_neg h0]
        exact ih ⟨c, hcl, hce⟩

lemma firstEmptyPick_spec (t : GridT) :
    ∀ (picks : List Cell) (c : Cell), firstEmptyPick t picks = some c →
      (t c.1 c.2).val = emptyTile := by
  intro picks
  induction picks with
  | nil => intro c h; exact Option.noConfusion h
  | cons c0 rest ih =>
    intro c h
    by_cases h0 : (t c0.1 c0.2).val = emptyTile
    · rw [firstEmptyPick, if_pos h0] at h
      rw [← Option.some.inj h]; exact h0
    · rw [firstEmptyPick, if_neg h0] at h
      exact ih c h

lemma gridSum_setCell (t : GridT) (x y : Fin 4) (v : Tile) :
    gridSum (setCell t x y v) + (t x y).val = gridSum t + v.val := by
  have h1 := sum_rows_update t x (Function.update (t x) y v) rowSum
  have h2 := sum_update_g (t x) y v (fun tl _ => tl.val)
  simp only [gridSum, rowSum, setCell] at h1 h2 ⊢
  omega

lemma spawnTile_sum (t : GridT) (picks : List Cell) (u : ℚ) (s : Nat)
    (t2 : GridT) (s2 : Nat) (h : spawnTile t picks u s = some (t2, s2)) :
    gridSum t2 = gridSum t + newTileVal u := by
  unfold spawnTile at h
  cases hfe : firstEmptyPick t picks with
  | none => rw [hfe] at h; exact Option.noConfusion h
  | some c =>
    rw [hfe] at h
    have hempty := firstEmptyPick_spec t picks c hfe
    have ht2 : t2 = setCell t c.1 c.2 ⟨newTileVal u, (t c.1 c.2).cmb, s⟩ := by
      have := Option.some.inj h
      exact (congrArg Prod.fst this).symm
    have hs := gridSum_setCell t c.1 c.2 ⟨newTileVal u, (t c.1 c.2).cmb, s⟩
    rw [ht2]
    simp only [emptyTile] at hempty
    simp only [hempty] at hs
    omega

lemma gridEmpties_exists (t : GridT) (h : 1 ≤ gridEmpties t) :
    ∃ i j : Fin 4, (t i j).val = emptyTile := by
  by_contra hc
  push_neg at hc
  have : gridEmpties t = 0 := by
    simp only [gridEmpties, rowEmpties]
    exact Finset.sum_eq_zero (fun i _ => Finset.sum_eq_zero (fun j _ => by
      rw [if_neg (hc i j)]))
  omega

lemma firstNe_ne (c1 : Cell) :
    ∀ (l : List Cell) (c2 : Cell), firstNe c1 l = some c2 → c2 ≠ c1 := by
  intro l
  induction l with
  | nil => intro c2 h; exact Option.noConfusion h
  | cons c0 rest ih =>
    intro c2 h
    by_cases h0 : c0 = c1
    · rw [firstNe, if_pos h0] at h
      exact ih c2 h
    · rw [firstNe, if_neg h0] at h
      rw [← Option.some.inj h]; exact h0

lemma firstNe_isSome (c1 : Cell) :
    ∀ (l : List Cell), (∃ c ∈ l, c ≠ c1) → (firstNe c1 l).isSome = true := by
  intro l
  induction l with
  | nil => rintro ⟨c, hc, _⟩; exact absurd hc (List.not_mem_nil c)
  | cons c0 rest ih =>
    rintro ⟨c, hc, hcne⟩
    by_cases h0 : c0 = c1
    · rcases List.mem_cons.mp hc with rfl | hcl
      · exact absurd h0 hcne
      · simp only [firstNe, if_pos h0]
        exact ih ⟨c, hcl, hcne⟩
    · simp [firstNe, h0]

lemma setCell_same (t : GridT) (x y : Fin 4) (v : Tile) : setCell t x y v x y = v := by
  simp [setCell]

lemma setCell_other (t : GridT) (x y : Fin 4) (v : Tile) (i j : Fin 4)
    (h : ¬(i = x ∧ j = y)) : setCell t x y v i j = t i j := by
  by_cases hix : i = x
  · subst hix
    have hjy : j ≠ y := fun hj => h ⟨rfl, hj⟩
    simp [setCell, Function.update_noteq hjy]
  · simp [setCell, Function.update_noteq hix]

/-! ## Claim theorems -/

/-- Claim C1, counterexample: a fully populated grid with no two adjacent
equal values that contains a `2048` tile at `(3,3)` yields `Outcome = Lose`,
not `Win`: `isLoss` is checked before the 2048 test, so "Win regardless of
the other cell contents" is false. -/
theorem c1_claim_counterexample :
    (cexGrid 3 3).val = 2048 ∧ gridOutcome cexGrid ≠ Outcome.win ∧
      gridOutcome cexGrid = Outcome.lose := by decide

/-- Claim C1 (amended): a grid that is not gridlocked and contains a tile of
value ≥ 2048 yields `Win`; a fully populated grid with no two adjacent equal
values (row-wise or column-wise) yields `Lose` — even if it contains a 2048
tile, since the loss check comes first. -/
theorem c1_outcome_amended :
    (∀ t : GridT, isLoss t = false → (∃ i j : Fin 4, 2048 ≤ (t i j).val) →
      gridOutcome t = Outcome.win) ∧
    (∀ t : GridT, (∀ i j : Fin 4, (t i j).val ≠ emptyTile) →
      (∀ (i : Fin 4) (j : Fin 3), (t i j.castSucc).val ≠ (t i j.succ).val) →
      (∀ (i : Fin 4) (j : Fin 3), (t j.castSucc i).val ≠ (t j.succ i).val) →
      gridOutcome t = Outcome.lose) := by
  constructor
  · rintro t h1 ⟨i, j, hij⟩
    have h2 : 2048 ≤ highestTile t := le_trans hij (le_highestTile t i j)
    simp [gridOutcome, h1, h2]
  · intro t h1 h2 h3
    simp [gridOutcome, isLoss_of_full_noadj t h1 h2 h3]

/-- Application of the amended C1 theorem to a winning grid and to the
gridlocked counterexample grid. -/
theorem c1_witness :
    gridOutcome winGrid = Outcome.win ∧ gridOutcome cexGrid = Outcome.lose :=
  ⟨c1_outcome_amended.1 winGrid (by decide) ⟨0, 0, by decide⟩,
   c1_outcome_amended.2 cexGrid (by decide) (by decide) (by decide)⟩

/-- Claim C5: row `[2, 2, 4, 0]`, `Move(Left)` gives row `[4, 4, 0, 0]` and
`pointsGained = 4` (the merged `4` cannot merge again with the existing `4`
in the same call); a second `Move(Left)` gives `[8, 0, 0, 0]` and
`pointsGained = 8`.  The spawned tiles land in other rows. -/
theorem c5_concrete_example :
    ((Move ⟨exGrid1, none⟩ Direction.left [((1 : Fin 4), (0 : Fin 4))] 0 100).map
      (fun r => ([(r.1.tiles 0 0).val, (r.1.tiles 0 1).val, (r.1.tiles 0 2).val,
        (r.1.tiles 0 3).val], r.2.1)))
      = some ([4, 4, 0, 0], 4) ∧
    (((Move ⟨exGrid1, none⟩ Direction.left [((1 : Fin 4), (0 : Fin 4))] 0 100).bind
        (fun r => Move r.1 Direction.left [((2 : Fin 4), (0 : Fin 4))] 0 r.2.2)).map
      (fun r => ([(r.1.tiles 0 0).val, (r.1.tiles 0 1).val, (r.1.tiles 0 2).val,
        (r.1.tiles 0 3).val], r.2.1)))
      = some ([8, 0, 0, 0], 8) := by decide

/-- Claim C9: `Move(Left)` on row `[2, 2, 2, 2]` returns 4 (not 8): each
merge's points overwrite the previous value.  On row `[4, 4, 2, 2]` the
merges are worth 8 then 4 and the call returns 4 — the value of the last
merge, not the sum 12 and not the first merge's 8. -/
theorem c9_points_overwrite :
    ((Move ⟨exGrid2, none⟩ Direction.left [((1 : Fin 4), (0 : Fin 4))] 0 100).map
      (fun r => ([(r.1.tiles 0 0).val, (r.1.tiles 0 1).val, (r.1.tiles 0 2).val,
        (r.1.tiles 0 3).val], r.2.1)))
      = some ([4, 4, 0, 0], 4) ∧
    ((Move ⟨exGrid3, none⟩ Direction.left [((1 : Fin 4), (0 : Fin 4))] 0 100).map
      (fun r => ([(r.1.tiles 0 0).val, (r.1.tiles 0 1).val, (r.1.tiles 0 2).val,
        (r.1.tiles 0 3).val], r.2.1)))
      = some ([8, 4, 0, 0], 4) := by decide

/-- Claim C2, counterexample: on a fully blocked board whose `(0,0)` tile
still carries the `Cmb` flag, `Move` does mutate the grid's tiles — the flag
is cleared — while spawning nothing, returning 0 points and setting
`LastMove`. -/
theorem c2_claim_counterexample :
    blockedGrid Direction.left lockGrid ∧ (lockGrid 0 0).cmb = true ∧
      ((Move ⟨lockGrid, none⟩ Direction.left [] 0 7).map
        (fun r => ((r.1.tiles 0 0).cmb, r.2.1, r.1.lastMove)))
        = some (false, 0, some Direction.left) := by decide

/-- Claim C2 (amended): a fully blocked `Move` leaves every tile's value and
identity unchanged — its only mutation is clearing the `Cmb` flags — spawns
no tile, returns zero points, and still records the attempted direction in
`LastMove`. -/
theorem c2_blocked_move_amended (g : Grid) (dir : Direction) (picks : List Cell)
    (u : ℚ) (s : Nat) (h : blockedGrid dir g.tiles) :
    Move g dir picks u s
      = some ({ tiles := clearCmb g.tiles, lastMove := some dir }, 0, s) := by
  simp [Move, moveGo_blocked g.tiles dir s h]

/-- Application of the amended C2 theorem to the gridlocked board. -/
theorem c2_witness :
    Move ⟨lockGrid, none⟩ Direction.up [] 0 3
      = some ({ tiles := clearCmb lockGrid, lastMove := some Direction.up }, 0, 3) :=
  c2_blocked_move_amended ⟨lockGrid, none⟩ Direction.up [] 0 3 (by decide)

/-- Claim C3: mass conservation.  Whenever `Move` returns, the sum of the
tile values afterwards equals the sum before plus the value of the newly
spawned tile when the board changed, and is unchanged when no tile moved. -/
theorem c3_mass_conservation (g : Grid) (dir : Direction) (picks : List Cell)
    (u : ℚ) (s : Nat) (g' : Grid) (pts s' : Nat)
    (h : Move g dir picks u s = some (g', pts, s')) :
    ((moveGo g.tiles dir s).2.1 = true →
      gridSum g'.tiles = gridSum g.tiles + newTileVal u) ∧
    ((moveGo g.tiles dir s).2.1 = false →
      gridSum g'.tiles = gridSum g.tiles) := by
  constructor
  · intro hdm
    simp only [Move, hdm, if_true] at h
    cases hsp : spawnTile (moveGo g.tiles dir s).1 picks u (moveGo g.tiles dir s).2.2.2 with
    | none => rw [hsp] at h; exact Option.noConfusion h
    | some p =>
      obtain ⟨t2, s2⟩ := p
      rw [hsp] at h
      have hpair := Option.some.inj h
      injection hpair with ha hb
      have hg : g'.tiles = t2 := by rw [← ha]
      rw [hg, spawnTile_sum (moveGo g.tiles dir s).1 picks u
        (moveGo g.tiles dir s).2.2.2 t2 s2 hsp, moveGo_sum]
  · intro hdm
    simp only [Move, hdm, Bool.false_eq_true, if_false] at h
    have hpair := Option.some.inj h
    injection hpair with ha hb
    have hg : g'.tiles = (moveGo g.tiles dir s).1 := by rw [← ha]
    rw [hg, moveGo_sum]

/-- Application of the C3 theorem: a single `2` slides left and a `2` spawns
at `(3,3)`; the total goes from 2 to 4. -/
theorem c3_witness :
    ((Move ⟨exGrid4, none⟩ Direction.left [((3 : Fin 4), (3 : Fin 4))] 0 50).map
      (fun r => gridSum r.1.tiles)) = some (gridSum exGrid4 + newTileVal 0) := by
  cases hE : Move ⟨exGrid4, none⟩ Direction.left [((3 : Fin 4), (3 : Fin 4))] 0 50 with
  | none =>
    have hs : (Move ⟨exGrid4, none⟩ Direction.left
        [((3 : Fin 4), (3 : Fin 4))] 0 50).isSome = true := by decide
    rw [hE] at hs
    simp at hs
  | some r =>
    obtain ⟨g', pts, s'⟩ := r
    have hc := (c3_mass_conservation ⟨exGrid4, none⟩ Direction.left
      [((3 : Fin 4), (3 : Fin 4))] 0 50 g' pts s' hE).1 (by decide)
    simp [hc]

/-- Claim C4: the merge-once invariant.  (1) `move` clears every `Cmb` flag
at the start, so its result is insensitive to incoming flags; (2) a scan step
that awards points is exactly a merge between two tiles neither of which has
combined this turn, and it marks the produced tile `Cmb`; (3) a `Cmb`-marked
tile survives the rest of the `Move` call unchanged (value, flag and
identity), so it can never satisfy the merge guard again within the call. -/
theorem c4_merge_once :
    (∀ (t : GridT) (dir : Direction) (s : Nat),
      moveGo t dir s = moveGo (clearCmb t) dir s) ∧
    (∀ (rev : Bool) (idxs : List (Fin 4)) (g : Row) (s : Nat) (g' : Row) (p s' : Nat),
      moveStepAux rev idxs g s = (g', true, p, s') → 0 < p →
      ∃ i np : Fin 4, nextPos rev i = some np ∧ (g i).val ≠ emptyTile ∧
        (g np).val = (g i).val ∧ (g i).cmb = false ∧ (g np).cmb = false ∧
        p = (g np).val + (g i).val ∧ g' = mergeRow g i np s ∧ (g' np).cmb = true) ∧
    (∀ (dir : Direction) (fuel : Nat) (t : GridT) (mv : Bool) (pts s : Nat) (v u : Nat),
      v ≠ 0 → gridHasTile t ⟨v, true, u⟩ →
      gridHasTile (moveLoop dir fuel t mv pts s).1 ⟨v, true, u⟩) := by
  refine ⟨?_, ?_, ?_⟩
  · intro t dir s
    have hcc : clearCmb (clearCmb t) = clearCmb t := rfl
    unfold moveGo
    rw [hcc]
  · intro rev idxs g s g' p s' h hp
    rcases moveStepAux_inv rev idxs g s with heq | ⟨i, np, hnp, hsrc, hcase⟩
    · rw [heq] at h
      have : (false : Bool) = true := congrArg (fun q => q.2.1) h
      exact Bool.noConfusion this
    · rcases hcase with ⟨hval, hci, hcn, heq⟩ | ⟨hempty, heq⟩
      · rw [heq] at h
        injection h with h1 h2
        injection h2 with h3 h4
        injection h4 with h5 h6
        refine ⟨i, np, hnp, hsrc, hval, hci, hcn, h5.symm, h1.symm, ?_⟩
        have hne : i ≠ np := ((nextPos_facts rev i np hnp).1).symm
        rw [← h1]
        simp [mergeRow, Function.update_noteq (Ne.symm hne)]
      · rw [heq] at h
        have hp0 : p = 0 := by
          have := congrArg (fun q => q.2.2.1) h
          simpa using this.symm
        omega
  · intro dir fuel t mv pts s v u hv h
    exact moveLoop_persist dir fuel t mv pts s v u hv h

/-- Application of the C4 theorem: the merge step on `[2, 2, 0, 0]` is a
merge of two unmerged tiles, and the `Cmb`-marked tile of the gridlocked
board survives a whole loop execution. -/
theorem c4_witness :
    (∃ i np : Fin 4, nextPos false i = some np ∧
      ((rowOf 2 2 0 0) i).val ≠ emptyTile ∧
      ((rowOf 2 2 0 0) np).val = ((rowOf 2 2 0 0) i).val ∧
      ((rowOf 2 2 0 0) i).cmb = false ∧ ((rowOf 2 2 0 0) np).cmb = false ∧
      4 = ((rowOf 2 2 0 0) np).val + ((rowOf 2 2 0 0) i).val ∧
      (moveStepAux false [0, 1, 2, 3] (rowOf 2 2 0 0) 10).1
        = mergeRow (rowOf 2 2 0 0) i np 10 ∧
      ((moveStepAux false [0, 1, 2, 3] (rowOf 2 2 0 0) 10).1 np).cmb = true) ∧
    gridHasTile (moveLoop Direction.left 3 lockGrid false 0 0).1 ⟨2, true, 0⟩ :=
  ⟨c4_merge_once.2.1 false [0, 1, 2, 3] (rowOf 2 2 0 0) 10
      (moveStepAux false [0, 1, 2, 3] (rowOf 2 2 0 0) 10).1 4 12 (by decide) (by decide),
   c4_merge_once.2.2 Direction.left 3 lockGrid false 0 0 2 0 (by decide) (by decide)⟩

/-- Claim C10: termination.  (1) `move` reaches, within its 49 passes, a grid
on which a further pass finds nothing to do — the outer loop always exits via
its break; (2) whenever a move or merge occurred, the resulting grid has an
empty cell; (3) the spawn loop finds a cell as soon as its random stream
contains an empty one, so `Move` fed a stream covering all 16 cells always
returns; (4) `Reset`'s retry loop for the second seed cell succeeds as soon
as the stream contains a cell different from the first. -/
theorem c10_termination :
    (∀ (t : GridT) (dir : Direction) (s : Nat), stuckGrid dir (moveGo t dir s).1) ∧
    (∀ (t : GridT) (dir : Direction) (s : Nat), (moveGo t dir s).2.1 = true →
      ∃ i j : Fin 4, ((moveGo t dir s).1 i j).val = emptyTile) ∧
    (∀ (g : Grid) (dir : Direction) (u : ℚ) (s : Nat),
      (Move g dir allCells u s).isSome = true) ∧
    (∀ (t : GridT) (picks : List Cell),
      (∃ c ∈ picks, (t c.1 c.2).val = emptyTile) →
      (firstEmptyPick t picks).isSome = true) ∧
    (∀ (c1 : Cell) (l : List Cell), (∃ c ∈ l, c ≠ c1) →
      (firstNe c1 l).isSome = true) := by
  refine ⟨fun t dir s => moveGo_stuck t dir s, ?_, ?_,
    fun t picks h => firstEmptyPick_isSome t picks h,
    fun c1 l h => firstNe_isSome c1 l h⟩
  · intro t dir s h
    exact gridEmpties_exists _ (moveGo_empties t dir s h)
  · intro g dir u s
    simp only [Move]
    cases hdm : (moveGo g.tiles dir s).2.1
    · simp
    · have hex := gridEmpties_exists _ (moveGo_empties g.tiles dir s hdm)
      obtain ⟨i, j, hij⟩ := hex
      have hfe := firstEmptyPick_isSome (moveGo g.tiles dir s).1 allCells
        ⟨(i, j), mem_allCells (i, j), hij⟩
      simp only [spawnTile]
      cases hpk : firstEmptyPick (moveGo g.tiles dir s).1 allCells with
      | none => rw [hpk] at hfe; simp at hfe
      | some c => simp

/-- Application of the C10 theorem: the single-tile board moves left, leaving
empty cells; the spawn scan and the reset retry scan find their cells. -/
theorem c10_witness :
    (∃ i j : Fin 4, ((moveGo exGrid4 Direction.left 0).1 i j).val = emptyTile) ∧
    (Move ⟨exGrid4, none⟩ Direction.left allCells 0 0).isSome = true ∧
    (firstEmptyPick exGrid1 [((3 : Fin 4), (3 : Fin 4))]).isSome = true ∧
    (firstNe ((0 : Fin 4), (0 : Fin 4))
      [((0 : Fin 4), (0 : Fin 4)), ((0 : Fin 4), (1 : Fin 4))]).isSome = true :=
  ⟨c10_termination.2.1 exGrid4 Direction.left 0 (by decide),
   c10_termination.2.2.1 ⟨exGrid4, none⟩ Direction.left 0 0,
   c10_termination.2.2.2.1 exGrid1 [((3 : Fin 4), (3 : Fin 4))]
     ⟨((3 : Fin 4), (3 : Fin 4)), by decide, by decide⟩,
   c10_termination.2.2.2.2 ((0 : Fin 4), (0 : Fin 4))
     [((0 : Fin 4), (0 : Fin 4)), ((0 : Fin 4), (1 : Fin 4))]
     ⟨((0 : Fin 4), (1 : Fin 4)), by decide, by decide⟩⟩

lemma Reset_cons (c1 : Cell) (rest : List Cell) (u1 u2 : ℚ) (s : Nat) (c2 : Cell)
    (h : firstNe c1 rest = some c2) :
    Reset (c1 :: rest) u1 u2 s = some (setCell (setCell (newTiles s).1 c1.1 c1.2
      { (newTiles s).1 c1.1 c1.2 with val := newTileVal u1 }) c2.1 c2.2
      { setCell (newTiles s).1 c1.1 c1.2 { (newTiles s).1 c1.1 c1.2 with
          val := newTileVal u1 } c2.1 c2.2 with val := newTileVal u2 }, s + 16) := by
  simp only [Reset, h]
  rfl

lemma newTileVal_distribution (u : ℚ) :
    0 < newTileVal u ∧ (newTileVal u = 2 ↔ u < 9 / 10) ∧
      (newTileVal u = 4 ↔ 9 / 10 ≤ u) := by
  by_cases h : u ≥ 9 / 10
  · have h2 : ¬(u < 9 / 10) := not_lt.mpr h
    simp [newTileVal, h, h2]
  · have h2 : u < 9 / 10 := lt_of_not_ge h
    simp [newTileVal, h, h2]

/-- Claim C6: `Reset` seeds the board with exactly two non-empty tiles, at the
first randomly drawn cell and at the first subsequently drawn cell that
differs from it (the rejection-sampling loop), every other cell empty; each
seed value comes from the spawn distribution: 2 exactly when the uniform
`[0,1)` sample is below 9/10 (90%), 4 exactly when it is at least 9/10 (10%). -/
theorem c6_reset_seed_tiles (c1 : Cell) (rest : List Cell) (u1 u2 : ℚ) (s : Nat)
    (c2 : Cell) (h : firstNe c1 rest = some c2) :
    ∃ t' : GridT, Reset (c1 :: rest) u1 u2 s = some (t', s + 16) ∧ c2 ≠ c1 ∧
      (t' c1.1 c1.2).val = newTileVal u1 ∧ (t' c2.1 c2.2).val = newTileVal u2 ∧
      (∀ c : Cell, c ≠ c1 → c ≠ c2 → (t' c.1 c.2).val = emptyTile) ∧
      (∀ u : ℚ, 0 < newTileVal u ∧ (newTileVal u = 2 ↔ u < 9 / 10) ∧
        (newTileVal u = 4 ↔ 9 / 10 ≤ u)) := by
  have hne : c2 ≠ c1 := firstNe_ne c1 rest c2 h
  have hne' : c1 ≠ c2 := fun he => hne he.symm
  refine ⟨_, Reset_cons c1 rest u1 u2 s c2 h, hne, ?_, ?_, ?_,
    fun u => newTileVal_distribution u⟩
  · rw [setCell_other _ _ _ _ _ _ (fun hcc => hne' (Prod.ext_iff.mpr hcc)),
      setCell_same]
  · rw [setCell_same]
  · intro c hc1 hc2
    rw [setCell_other _ _ _ _ _ _ (fun hcc => hc2 (Prod.ext_iff.mpr hcc)),
      setCell_other _ _ _ _ _ _ (fun hcc => hc1 (Prod.ext_iff.mpr hcc))]
    rfl

/-- Application of the C6 theorem: the second pick collides with the first
and is redrawn; seeds get values 2 (sample 1/2) and 4 (sample 19/20). -/
theorem c6_witness :
    ∃ t' : GridT, Reset [((0 : Fin 4), (0 : Fin 4)), ((0 : Fin 4), (0 : Fin 4)),
        ((1 : Fin 4), (2 : Fin 4))] (1/2) (19/20) 0 = some (t', 0 + 16) ∧
      (((1 : Fin 4), (2 : Fin 4)) : Cell) ≠ ((0 : Fin 4), (0 : Fin 4)) ∧
      (t' 0 0).val = newTileVal (1/2) ∧ (t' 1 2).val = newTileVal (19/20) ∧
      (∀ c : Cell, c ≠ ((0 : Fin 4), (0 : Fin 4)) → c ≠ ((1 : Fin 4), (2 : Fin 4)) →
        (t' c.1 c.2).val = emptyTile) ∧
      (∀ u : ℚ, 0 < newTileVal u ∧ (newTileVal u = 2 ↔ u < 9 / 10) ∧
        (newTileVal u = 4 ↔ 9 / 10 ≤ u)) :=
  c6_reset_seed_tiles ((0 : Fin 4), (0 : Fin 4))
    [((0 : Fin 4), (0 : Fin 4)), ((1 : Fin 4), (2 : Fin 4))] (1/2) (19/20) 0
    ((1 : Fin 4), (2 : Fin 4)) (by decide)

/-- Claim C7: receiving `EventData{ScreenLoaded}` makes a side send exactly
two messages, in order: its own current `GameData` snapshot, then
`RequestData{GameData}`; the state is otherwise untouched.  The handler is
the same on both sides and for every state, so this holds regardless of
which side's screen finished loading first. -/
theorem c7_screen_loaded (st : ScreenState) (c : WireContent)
    (h : c.asEventData = some GameEvent.screenLoaded) :
    handleOpponentData st (RxBytes.msg MsgKind.eventData c)
      = Except.ok (st, [TxMsg.gameData st.ownGame,
          TxMsg.requestData MsgKind.gameData]) := by
  simp [handleOpponentData, h, handleEventData, sendGameData, requestOpponentGameData]

/-- Application of the C7 theorem to a concrete state and payload. -/
theorem c7_witness :
    handleOpponentData ⟨⟨1⟩, ⟨2⟩⟩ (RxBytes.msg MsgKind.eventData
        ⟨none, some GameEvent.screenLoaded, none⟩)
      = Except.ok ((⟨⟨1⟩, ⟨2⟩⟩ : ScreenState),
          [TxMsg.gameData ⟨1⟩, TxMsg.requestData MsgKind.gameData]) :=
  c7_screen_loaded ⟨⟨1⟩, ⟨2⟩⟩ ⟨none, some GameEvent.screenLoaded, none⟩ rfl

/-- Claim C8: every payload that fails to decode — framing failure, a type
tag outside {GameData, EventData, RequestData}, or content its per-type
decoder rejects — makes `handleOpponentData` return a typed error; the
receive callback then drops the message, sends nothing, and leaves the local
session and the opponent mirror unchanged. -/
theorem c8_bad_payload_dropped (st : ScreenState) (b : RxBytes) (h : badPayload b) :
    (∃ e : SyncError, handleOpponentData st b = Except.error e) ∧
      processOpponentData st b = (st, []) := by
  cases b with
  | malformed => exact ⟨⟨SyncError.parseMessageFailure, rfl⟩, rfl⟩
  | msg k c =>
    cases k with
    | gameData =>
      have hc : c.asGameData = none := h
      refine ⟨⟨SyncError.parseContentFailure MsgKind.gameData, ?_⟩, ?_⟩ <;>
        simp [handleOpponentData, processOpponentData, hc]
    | eventData =>
      have hc : c.asEventData = none := h
      refine ⟨⟨SyncError.parseContentFailure MsgKind.eventData, ?_⟩, ?_⟩ <;>
        simp [handleOpponentData, processOpponentData, hc]
    | requestData =>
      have hc : c.asRequestData = none := h
      refine ⟨⟨SyncError.parseContentFailure MsgKind.requestData, ?_⟩, ?_⟩ <;>
        simp [handleOpponentData, processOpponentData, hc]
    | playerData =>
      exact ⟨⟨SyncError.unsupportedType MsgKind.playerData, rfl⟩, rfl⟩
    | other tag =>
      exact ⟨⟨SyncError.unsupportedType (MsgKind.other tag), rfl⟩, rfl⟩

/-- Application of the C8 theorem to an unknown type tag. -/
theorem c8_witness :
    (∃ e : SyncError, handleOpponentData ⟨⟨1⟩, ⟨2⟩⟩
        (RxBytes.msg (MsgKind.other "bogus") ⟨none, none, none⟩) = Except.error e) ∧
      processOpponentData ⟨⟨1⟩, ⟨2⟩⟩
        (RxBytes.msg (MsgKind.other "bogus") ⟨none, none, none⟩) = (⟨⟨1⟩, ⟨2⟩⟩, []) :=
  c8_bad_payload_dropped ⟨⟨1⟩, ⟨2⟩⟩
    (RxBytes.msg (MsgKind.other "bogus") ⟨none, none, none⟩) trivial
